import Mathlib

/-
Verification development for the QuickBooks report connector
(source_quickbooks_drivepoint).  The Python modules `streams.py` and
`source.py` are shallowly embedded below: the hierarchical report
flattener (`_process_rows` and its helpers), the column-class
collapsing of `parse_response`, the monthly period slicer
(`stream_slices`), the output schema (`get_json_schema`) and the OAuth
token refresher (`refresh_access_token`).
-/

namespace QBD

/-! ## String primitives

Kernel-computable (structurally recursive) models of the Python string
methods used by the source: `str.split(sep)` (only the part before the
first separator occurrence is ever used), `str.replace(pat, "")` for
one-character patterns, and `str.lower()`. -/

/-- If `sep` is a prefix of `l`, return the remainder after it. -/
def stripSepQ : List Char → List Char → Option (List Char)
  | [], l => some l
  | _ :: _, [] => none
  | a :: as, b :: bs => if a = b then stripSepQ as bs else none

/-- Find the leftmost occurrence of `sep` in `l`; return the part
before it and the part after it. -/
def findSep (sep : List Char) : List Char → Option (List Char × List Char)
  | [] => if sep.isEmpty then some ([], []) else none
  | c :: cs =>
      match stripSepQ sep (c :: cs) with
      | some rest => some ([], rest)
      | none =>
          match findSep sep cs with
          | some (pre, post) => some (c :: pre, post)
          | none => none

/-- Python `s.lower()` (ASCII suffices for the labels compared). -/
def lowerStr (s : String) : String :=
  String.mk (s.data.map Char.toLower)

/-- Python `s.replace(c, "")` for a single-character pattern. -/
def removeChar (c : Char) (s : String) : String :=
  String.mk (s.data.filter (· ≠ c))

/-! ## Identifier cleanup

Mirrors the repeated pattern in `streams.py`:
    if x and " at index " in x:
        x = x.split(" at index ")[0]
`" at index " in x` holds exactly when `findSep` finds an occurrence,
and `x.split(" at index ")[0]` is the part before the first
occurrence; the guard on the empty string is subsumed (no occurrence
fits in an empty string). -/

def stripAtIndex (s : String) : String :=
  match findSep " at index ".data s.data with
  | some (pre, _) => String.mk pre
  | none => s

/-! ## Report tree data model

From the JSON shapes read by `parse_response` / `_process_rows`:
cells are `{value, id}` objects (absent keys read as `""` via
`.get(..., "")`), a row is a `Data` row (with `group` and `ColData`),
a `Section` row (with `group`, `Header.ColData` and nested
`Rows.Row`), or something else (ignored). -/

structure Cell where
  value : String
  id : String
deriving DecidableEq, Repr

inductive Row where
  | data (group : String) (colData : List Cell)
  | section (group : String) (headerColData : List Cell) (rows : List Row)
  | other

/-- The ancestry context threaded through `_process_rows` as keyword
arguments (`parent_name`, `parent_id`, `grandparent_name`,
`grandparent_id`, `category_name`, `category_id`, `section_type`),
all defaulting to `""` at the top-level call. -/
structure Ctx where
  parent_name : String := ""
  parent_id : String := ""
  grandparent_name : String := ""
  grandparent_id : String := ""
  category_name : String := ""
  category_id : String := ""
  section_type : String := ""
deriving DecidableEq, Repr

def Ctx.empty : Ctx := {}

/-! ## Column class mapping (`parse_response`, lines 180-190) -/

/-- Python `class_name = col_title.replace(" ", "").replace("-", "") if col_title
else f"Column_{i}"` (line 184). -/
def classNameOf (i : Nat) (colTitle : String) : String :=
  if colTitle ≠ "" then removeChar '-' (removeChar ' ' colTitle)
  else "Column_" ++ toString i

/-- The accumulation loop over `enumerate(columns[1:], 1)`:
a label is skipped when `len(column_classes) > 1` (labels retained so
far) and the label lower-cases to `"total"`; otherwise appended. -/
def columnClassesGo : List (Nat × String) → List String → List String
  | [], acc => acc
  | (i, t) :: rest, acc =>
      let class_name := classNameOf i t
      if 1 < acc.length ∧ lowerStr class_name = "total" then
        columnClassesGo rest acc
      else
        columnClassesGo rest (acc ++ [class_name])

/-- Column mapping of `parse_response`: skip the first column, label the
rest. `columns` is the list of `ColTitle` values. -/
def column_classes (columns : List String) : List String :=
  columnClassesGo ((columns.drop 1).enumFrom 1) []

/-! ## Full account path (`_process_rows`, lines 221-238) -/

def full_account_path (ctx : Ctx) (account_name : String) : List String :=
  let p1 : List String := if ctx.category_name ≠ "" then [ctx.category_name] else []
  let p2 : List String :=
    if ctx.section_type ≠ "" ∧ ctx.section_type ≠ ctx.category_name ∧
        ctx.section_type ∉ p1 then p1 ++ [ctx.section_type] else p1
  let p3 : List String :=
    if ctx.grandparent_name ≠ "" ∧ ctx.grandparent_name ≠ ctx.section_type ∧
        ctx.grandparent_name ∉ p2 then p2 ++ [ctx.grandparent_name] else p2
  let p4 : List String :=
    if ctx.parent_name ≠ "" ∧ ctx.parent_name ∉ p3 then p3 ++ [ctx.parent_name] else p3
  if account_name ≠ "" then p4 ++ [account_name] else p4

def full_account_name (ctx : Ctx) (account_name : String) : String :=
  String.intercalate ":" (full_account_path ctx account_name)

/-! ## The flat output record (dict literal at lines 260-278) -/

structure AccountRecord where
  _Account : String
  _Account_id : String
  StartPeriod : String
  EndPeriod : String
  Currency : String
  ParentAccountName : String
  ParentAccountId : String
  GrandParentAccountName : String
  GrandParentAccountId : String
  CategoryAccountName : String
  CategoryAccountId : String
  Classification : String
  FullyQualifiedName : String
  AccountType : String
  FullAccountName : String
  Class : String
  Total_Money : String
deriving DecidableEq, Repr

/-- One record of the per-class loop (`for i, class_name in
enumerate(column_classes, 1)`), body at lines 242-278.  `isPL` is
whether `self.path()` ends in `"ProfitAndLoss"`. -/
def make_account_record (isPL : Bool) (start_period end_period currency : String)
    (ctx : Ctx) (group account_name account_id fan : String)
    (colData : List Cell) (i : Nat) (class_name : String) : AccountRecord :=
  let amount := if i < colData.length then (colData.getD i ⟨"", ""⟩).value else ""
  let clean_parent_id := stripAtIndex ctx.parent_id
  let clean_grandparent_id := stripAtIndex ctx.grandparent_id
  let actual_grandparent_name :=
    if isPL ∧ ctx.parent_name ≠ "" ∧ ctx.grandparent_name = "" then ctx.category_name
    else ctx.grandparent_name
  { _Account := account_name
    _Account_id := account_id
    StartPeriod := start_period
    EndPeriod := end_period
    Currency := currency
    ParentAccountName := ctx.parent_name
    ParentAccountId := clean_parent_id
    GrandParentAccountName := actual_grandparent_name
    GrandParentAccountId := clean_grandparent_id
    CategoryAccountName := ctx.category_name
    CategoryAccountId := ctx.category_id
    Classification := group
    FullyQualifiedName := ""
    AccountType := ""
    FullAccountName := fan
    Class := class_name
    Total_Money := amount }

/-- Records emitted for one `Data` row (lines 212-279); nothing is
emitted when `len(col_data) < 2`. -/
def data_row_records (isPL : Bool) (start_period end_period currency : String)
    (column_classes : List String) (ctx : Ctx)
    (group : String) (colData : List Cell) : List AccountRecord :=
  if 2 ≤ colData.length then
    let account_name := (colData.getD 0 ⟨"", ""⟩).value
    let account_id := stripAtIndex (colData.getD 0 ⟨"", ""⟩).id
    let fan := full_account_name ctx account_name
    (column_classes.enumFrom 1).map fun p =>
      make_account_record isPL start_period end_period currency ctx
        group account_name account_id fan colData p.1 p.2
  else []

/-! ## Section context updates (lines 296-365) -/

/-- Method `_process_profit_loss_hierarchy`: new parent is the section, new
grandparent is the category. -/
def process_profit_loss_hierarchy (ctx : Ctx)
    (section_display_name section_id : String) : Ctx :=
  { category_name := ctx.category_name
    category_id := ctx.category_id
    parent_name := section_display_name
    parent_id := section_id
    grandparent_name := ctx.category_name
    grandparent_id := ctx.category_id
    section_type := ctx.section_type }

/-- Method `_process_balance_sheet_hierarchy`: new parent is the section, new
grandparent is the previous parent. -/
def process_balance_sheet_hierarchy (ctx : Ctx)
    (section_display_name section_id : String) : Ctx :=
  { category_name := ctx.category_name
    category_id := ctx.category_id
    parent_name := section_display_name
    parent_id := section_id
    grandparent_name := ctx.parent_name
    grandparent_id := ctx.parent_id
    section_type := ctx.section_type }

/-- The three-branch context update for a `Section` row
(lines 296-325): top level, second level, third level and beyond. -/
def section_context (isPL : Bool) (ctx : Ctx)
    (section_display_name section_id : String) : Ctx :=
  if ctx.category_name = "" then
    { category_name := section_display_name
      category_id := ""
      parent_name := ""
      parent_id := ""
      grandparent_name := ""
      grandparent_id := ""
      section_type := "" }
  else if ctx.parent_name = "" then
    { category_name := ctx.category_name
      category_id := ctx.category_id
      parent_name := section_display_name
      parent_id := section_id
      grandparent_name := ""
      grandparent_id := ""
      section_type := section_display_name }
  else if isPL then
    process_profit_loss_hierarchy ctx section_display_name section_id
  else
    process_balance_sheet_hierarchy ctx section_display_name section_id

/-- Method `_process_rows`: recursive flattening of a row list under a
context.  `Data` rows append their records; `Section` rows recurse
into their nested rows with the updated context, then the loop
continues with the remaining siblings; other row types are skipped. -/
def process_rows (isPL : Bool) (start_period end_period currency : String)
    (column_classes : List String) : List Row → Ctx → List AccountRecord
  | [], _ => []
  | .data group colData :: rest, ctx =>
      data_row_records isPL start_period end_period currency column_classes
        ctx group colData ++
      process_rows isPL start_period end_period currency column_classes rest ctx
  | .section _group headerColData nestedRows :: rest, ctx =>
      let section_display_name := (headerColData.getD 0 ⟨"", ""⟩).value
      let section_id := stripAtIndex (headerColData.getD 0 ⟨"", ""⟩).id
      process_rows isPL start_period end_period currency column_classes
        nestedRows (section_context isPL ctx section_display_name section_id) ++
      process_rows isPL start_period end_period currency column_classes rest ctx
  | .other :: rest, ctx =>
      process_rows isPL start_period end_period currency column_classes rest ctx

/-! ## Output schema (`get_json_schema`, lines 367-390), as the ordered
association list of (property name, declared type). -/

def get_json_schema : List (String × String) :=
  [("_Account", "string"),
   ("_Account_id", "string"),
   ("StartPeriod", "string"),
   ("EndPeriod", "string"),
   ("Currency", "string"),
   ("ParentAccountName", "string"),
   ("ParentAccountId", "string"),
   ("GrandParentAccountName", "string"),
   ("GrandParentAccountId", "string"),
   ("CategoryAccountName", "string"),
   ("CategoryAccountId", "string"),
   ("Classification", "string"),
   ("FullyQualifiedName", "string"),
   ("AccountType", "string"),
   ("FullAccountName", "string"),
   ("Class", "string"),
   ("Total_Money", "string")]

/-! ## Monthly period slicer (`stream_slices`, lines 30-95)

`datetime.strptime` / `pendulum.datetime` only ever produce valid
calendar dates, compared chronologically; a date is embedded as a
(year, month, day) triple and chronological comparison as comparison
of the key `year*10000 + month*100 + day`, which agrees with it on
valid dates. -/

structure Date where
  year : Nat
  month : Nat
  day : Nat
deriving DecidableEq, Repr

/-- Chronological comparison key. -/
def Date.key (d : Date) : Nat := d.year * 10000 + d.month * 100 + d.day

/-- Gregorian leap year, as pendulum computes calendar arithmetic. -/
def isLeap (y : Nat) : Bool := y % 4 = 0 && (y % 100 ≠ 0 || y % 400 = 0)

def daysInMonth (y m : Nat) : Nat :=
  if m = 2 then (if isLeap y then 29 else 28)
  else if m = 4 ∨ m = 6 ∨ m = 9 ∨ m = 11 then 30 else 31

def Date.valid (d : Date) : Prop :=
  1 ≤ d.month ∧ d.month ≤ 12 ∧ 1 ≤ d.day ∧ d.day ≤ daysInMonth d.year d.month

instance (d : Date) : Decidable d.valid := by unfold Date.valid; infer_instance

/-- First day of the next month (lines 72-80: the December → January
year rollover and the generic case). -/
def nextMonthFirst (d : Date) : Date :=
  if d.month = 12 then ⟨d.year + 1, 1, 1⟩ else ⟨d.year, d.month + 1, 1⟩

/-- Pendulum `next_month_first.add(days=-1)` (line 81): one day before the
first day of the next month is the last day of the current month. -/
def endOfMonth (d : Date) : Date := ⟨d.year, d.month, daysInMonth d.year d.month⟩

/-- Day successor on valid dates; used to state contiguity of slices. -/
def nextDay (d : Date) : Date :=
  if d.day < daysInMonth d.year d.month then ⟨d.year, d.month, d.day + 1⟩
  else nextMonthFirst d

/-- Month counter used to bound the loop of `stream_slices`. -/
def monthsIdx (d : Date) : Nat := d.year * 12 + d.month

/-- The `while current_start <= end` loop of `stream_slices`
(lines 64-95), with an explicit bound on the number of iterations (the
loop advances `current_start` to the first day of the next month each
pass, so it runs at most once per month of the range;
`stream_slices` supplies a sufficient bound). -/
def streamSlicesGo (endD : Date) : Nat → Date → List (Date × Date)
  | 0, _ => []
  | fuel + 1, cur =>
      if cur.key ≤ endD.key then
        let current_end := endOfMonth cur
        let current_end := if endD.key < current_end.key then endD else current_end
        (cur, current_end) :: streamSlicesGo endD fuel (nextMonthFirst cur)
      else []

/-- Method `stream_slices` for a present start and end date: the slice dicts
`{"start_date": ..., "end_date": ...}` are embedded as date pairs (the
`YYYY-MM-DD` formatting is injective on dates). -/
def stream_slices (start endD : Date) : List (Date × Date) :=
  streamSlicesGo endD (monthsIdx endD + 1 - monthsIdx start) start

/-- The slicer contract exactly as the spec words it: an
`InvalidRangeError` failure when `start > end`, otherwise the slice
list.  Used to compare the code's behaviour against the claim. -/
def claimed_slicer (start endD : Date) : Except String (List (Date × Date)) :=
  if endD.key < start.key then .error "InvalidRangeError"
  else .ok (stream_slices start endD)

/-! ## OAuth token refresh (`source.py`, `refresh_access_token`,
lines 90-120)

The HTTP POST is an external collaborator; the function is embedded
over the response it returns.  `response.raise_for_status()` raises
exactly for status codes 400-599; the mutable attributes touched by
the method (`self.refresh_token`, `self.token_expiry_date`) form the
state. -/

structure AuthState where
  refresh_token : String
  token_expiry_date : Option Int
deriving DecidableEq, Repr

structure RefreshResponse where
  status_code : Nat
  access_token : String
  expires_in : Int
  refresh_token : Option String
deriving DecidableEq, Repr

def refresh_access_token (st : AuthState) (now : Int) (resp : RefreshResponse) :
    Except String (AuthState × String × Int) :=
  if resp.status_code ≠ 200 ∧ 400 ≤ resp.status_code ∧ resp.status_code < 600 then
    .error "Error while refreshing access token"
  else
    let st1 := match resp.refresh_token with
      | some t => { st with refresh_token := t }
      | none => st
    .ok ({ st1 with token_expiry_date := some (now + resp.expires_in) },
      resp.access_token, resp.expires_in)

/-- Method `token_has_expired` (lines 82-88). -/
def token_has_expired (st : AuthState) (now : Int) : Bool :=
  match st.token_expiry_date with
  | none => true
  | some e => now ≥ e

/-- An emitted record viewed as the ordered (key, value) pairs of the
dict literal at lines 260-278.  All values are strings. -/
def AccountRecord.toPairs (r : AccountRecord) : List (String × String) :=
  [("_Account", r._Account),
   ("_Account_id", r._Account_id),
   ("StartPeriod", r.StartPeriod),
   ("EndPeriod", r.EndPeriod),
   ("Currency", r.Currency),
   ("ParentAccountName", r.ParentAccountName),
   ("ParentAccountId", r.ParentAccountId),
   ("GrandParentAccountName", r.GrandParentAccountName),
   ("GrandParentAccountId", r.GrandParentAccountId),
   ("CategoryAccountName", r.CategoryAccountName),
   ("CategoryAccountId", r.CategoryAccountId),
   ("Classification", r.Classification),
   ("FullyQualifiedName", r.FullyQualifiedName),
   ("AccountType", r.AccountType),
   ("FullAccountName", r.FullAccountName),
   ("Class", r.Class),
   ("Total_Money", r.Total_Money)]

/-! ## Spec-side reference definitions

Definitions written from the claims' own words (not from the source),
used to compare the code against a claim and, where the claim fails,
against its minimally amended form. -/

/-- One step of the path construction as the claims word it: append a
component only if it is non-empty and not already present. -/
def addIfNew (path : List String) (s : String) : List String :=
  if s ≠ "" ∧ s ∉ path then path ++ [s] else path

/-- Claim C2's path rule: every component — the account name included —
is appended only if non-empty and not already present earlier. -/
def claimed_full_path (cat sectionType gp par acct : String) : List String :=
  addIfNew (addIfNew (addIfNew (addIfNew (addIfNew [] cat) sectionType) gp) par) acct

/-- The amended path rule: the four ancestry components are appended
only if non-empty and not already present, but the account name is
appended whenever non-empty, with no duplicate check. -/
def amended_full_path (cat sectionType gp par acct : String) : List String :=
  let p := addIfNew (addIfNew (addIfNew (addIfNew [] cat) sectionType) gp) par
  if acct ≠ "" then p ++ [acct] else p

/-- Claim C4's reading of the column rule: whenever more than one class
column exists, every label that lower-cases to `"total"` is dropped. -/
def claimed_column_classes (columns : List String) : List String :=
  let raw := ((columns.drop 1).enumFrom 1).map fun p => classNameOf p.1 p.2
  if 1 < raw.length then raw.filter (fun c => lowerStr c ≠ "total") else raw

/-- The amended column rule: a column whose label lower-cases to
`"total"` is dropped exactly when more than one class label has already
been retained from earlier columns at the time it is examined. -/
def amended_column_classes_go : List (Nat × String) → List String → List String
  | [], acc => acc
  | (i, t) :: rest, acc =>
      if lowerStr (classNameOf i t) = "total" ∧ 1 < acc.length then
        amended_column_classes_go rest acc
      else
        amended_column_classes_go rest (acc ++ [classNameOf i t])

def amended_column_classes (columns : List String) : List String :=
  amended_column_classes_go ((columns.drop 1).enumFrom 1) []

/-- Stating "two records differ only in `Class` and `Total_Money`": equality of
all the other fifteen fields. -/
def eq_except_class_total (r1 r2 : AccountRecord) : Prop :=
  r1._Account = r2._Account ∧ r1._Account_id = r2._Account_id ∧
  r1.StartPeriod = r2.StartPeriod ∧ r1.EndPeriod = r2.EndPeriod ∧
  r1.Currency = r2.Currency ∧ r1.ParentAccountName = r2.ParentAccountName ∧
  r1.ParentAccountId = r2.ParentAccountId ∧
  r1.GrandParentAccountName = r2.GrandParentAccountName ∧
  r1.GrandParentAccountId = r2.GrandParentAccountId ∧
  r1.CategoryAccountName = r2.CategoryAccountName ∧
  r1.CategoryAccountId = r2.CategoryAccountId ∧
  r1.Classification = r2.Classification ∧
  r1.FullyQualifiedName = r2.FullyQualifiedName ∧
  r1.AccountType = r2.AccountType ∧ r1.FullAccountName = r2.FullAccountName

/-- Concrete record used as witness instance for the C10 invariant: the
record the flattener emits for account `"Checking"` under a top-level
`"ASSETS"` section. -/
def checkingRecord : AccountRecord :=
  { _Account := "Checking", _Account_id := "35", StartPeriod := "s",
    EndPeriod := "e", Currency := "c", ParentAccountName := "",
    ParentAccountId := "", GrandParentAccountName := "", GrandParentAccountId := "",
    CategoryAccountName := "ASSETS", CategoryAccountId := "",
    Classification := "BankAccounts", FullyQualifiedName := "", AccountType := "",
    FullAccountName := "ASSETS:Checking", Class := "Total",
    Total_Money := "100.00" }

/-! # Theorems -/

/-! ## Helper lemmas -/

theorem columnClassesGo_eq_amended (l : List (Nat × String)) :
    ∀ acc : List String, columnClassesGo l acc = amended_column_classes_go l acc := by
  induction l with
  | nil => intro acc; rfl
  | cons p rest ih =>
      intro acc
      obtain ⟨i, t⟩ := p
      simp only [columnClassesGo, amended_column_classes_go]
      by_cases h1 : 1 < acc.length <;>
        by_cases h2 : lowerStr (classNameOf i t) = "total" <;>
          simp [h1, h2, ih]

theorem mem_addIfNew_self (p : List String) (s : String) (h : s ≠ "") :
    s ∈ addIfNew p s := by
  unfold addIfNew
  by_cases hs : s ∈ p
  · simp [hs]
  · simp [h, hs]

/-- When `t` is `""` or already in `p`, the extra `s ≠ t` conjunct of the
code's path conditions is redundant. -/
theorem cond_iff (p : List String) (s t : String) (ht : t ≠ "" → t ∈ p) :
    (s ≠ "" ∧ s ≠ t ∧ s ∉ p) ↔ (s ≠ "" ∧ s ∉ p) := by
  constructor
  · rintro ⟨a, _, c⟩; exact ⟨a, c⟩
  · rintro ⟨a, c⟩
    refine ⟨a, fun he => ?_, c⟩
    exact c (he ▸ ht (he ▸ a))

theorem full_account_path_eq_amended (ctx : Ctx) (acct : String) :
    full_account_path ctx acct =
      amended_full_path ctx.category_name ctx.section_type ctx.grandparent_name
        ctx.parent_name acct := by
  obtain ⟨pn, pid, gn, gid, cn, cid, sty⟩ := ctx
  simp only [full_account_path, amended_full_path]
  have h1 : (if cn ≠ "" then [cn] else []) = addIfNew ([] : List String) cn := by
    simp [addIfNew]
  rw [h1]
  have hcn : cn ≠ "" → cn ∈ addIfNew ([] : List String) cn :=
    fun h => mem_addIfNew_self [] cn h
  have h2 : (if sty ≠ "" ∧ sty ≠ cn ∧ sty ∉ addIfNew ([] : List String) cn then
        addIfNew ([] : List String) cn ++ [sty] else addIfNew ([] : List String) cn) =
      addIfNew (addIfNew ([] : List String) cn) sty := by
    unfold addIfNew
    exact if_congr (cond_iff _ sty cn hcn) rfl rfl
  rw [h2]
  have hsty : sty ≠ "" → sty ∈ addIfNew (addIfNew ([] : List String) cn) sty :=
    fun h => mem_addIfNew_self _ sty h
  have h3 : (if gn ≠ "" ∧ gn ≠ sty ∧ gn ∉ addIfNew (addIfNew ([] : List String) cn) sty then
        addIfNew (addIfNew ([] : List String) cn) sty ++ [gn]
      else addIfNew (addIfNew ([] : List String) cn) sty) =
      addIfNew (addIfNew (addIfNew ([] : List String) cn) sty) gn := by
    unfold addIfNew
    exact if_congr (cond_iff _ gn sty hsty) rfl rfl
  rw [h3]
  rfl

/-! ## Claim C4 -/

/-- Claim C4, counterexample: for columns `["Account", "ClassA",
"Total"]` more than one class column exists, yet the code keeps the
`"Total"` column (the drop condition tests the labels retained so far,
which number only one when `"Total"` is examined), so the labels differ
from the claimed `["ClassA"]`. -/
theorem C4_counterexample :
    column_classes ["Account", "ClassA", "Total"] = ["ClassA", "Total"] ∧
    claimed_column_classes ["Account", "ClassA", "Total"] = ["ClassA"] ∧
    column_classes ["Account", "ClassA", "Total"] ≠
      claimed_column_classes ["Account", "ClassA", "Total"] := by
  refine ⟨by decide, by decide, by decide⟩

/-- Claim C4 as amended: the first column is skipped, each remaining
column's class label is its title with spaces and hyphens stripped (or
`Column_<i>` when the title is empty), and a column whose label equals
`"Total"` case-insensitively is dropped exactly when more than one
class label has already been retained from earlier columns; in
particular `["Account", "ClassA", "ClassB", "Total"]` yields
`["ClassA", "ClassB"]` and `["Account", "Total"]` yields
`["Total"]`. -/
theorem C4_column_classes :
    (∀ columns : List String,
      column_classes columns = amended_column_classes columns) ∧
    column_classes ["Account", "ClassA", "ClassB", "Total"] = ["ClassA", "ClassB"] ∧
    column_classes ["Account", "Total"] = ["Total"] := by
  refine ⟨fun columns => ?_, by decide, by decide⟩
  exact columnClassesGo_eq_amended _ []

/-! ## Claim C9 -/

/-- Claim C9, counterexample: the declared output schema has 17
properties, not 18. -/
theorem C9_counterexample : get_json_schema.length ≠ 18 := by decide

/-- Claim C9 as amended: the declared output schema consists of exactly
17 string-typed fields, and every emitted record carries exactly those
fields, in the same order, with string values (record values are
strings by construction; amounts are passed through unparsed). -/
theorem C9_schema :
    get_json_schema.length = 17 ∧
    (∀ p ∈ get_json_schema, p.2 = "string") ∧
    (∀ r : AccountRecord, r.toPairs.map Prod.fst = get_json_schema.map Prod.fst) := by
  refine ⟨by decide, by decide, fun r => rfl⟩

/-! ## Claim C2 -/

/-- Claim C2, counterexample: with category `"Assets"`, parent
`"Checking"` and account name `"Checking"`, the code appends the
account name even though it is already present in the path, producing
`"Assets:Checking:Checking"`, while the claimed rule (each component
appended only if not already present) would give `"Assets:Checking"`. -/
theorem C2_counterexample :
    full_account_name { category_name := "Assets", parent_name := "Checking" } "Checking"
        = "Assets:Checking:Checking" ∧
    String.intercalate ":" (claimed_full_path "Assets" "" "" "Checking" "Checking")
        = "Assets:Checking" ∧
    full_account_path { category_name := "Assets", parent_name := "Checking" } "Checking"
        ≠ claimed_full_path "Assets" "" "" "Checking" "Checking" := by
  refine ⟨by decide, by decide, by decide⟩

/-- Claim C2 as amended: the emitted `FullAccountName` is the
colon-joined concatenation of category, sectionType, grandparent and
parent — each included only if non-empty and not already present
earlier in the path (the code's extra "distinct from the previous
level" tests are redundant given the duplicate check) — followed by the
account name whenever it is non-empty, with no duplicate check on the
account name itself; in particular category `"Assets"`, sectionType
`"Current Assets"`, grandparent `"Current Assets"`, parent `"Checking"`
yields `"Assets:Current Assets:Checking:<account>"` with
`"Current Assets"` appearing once. -/
theorem C2_full_account_name :
    (∀ (ctx : Ctx) (acct : String),
      full_account_name ctx acct =
        String.intercalate ":"
          (amended_full_path ctx.category_name ctx.section_type ctx.grandparent_name
            ctx.parent_name acct)) ∧
    full_account_name
        { category_name := "Assets", section_type := "Current Assets",
          grandparent_name := "Current Assets", parent_name := "Checking" } "Petty Cash"
      = "Assets:Current Assets:Checking:Petty Cash" := by
  refine ⟨fun ctx acct => ?_, by decide⟩
  unfold full_account_name
  rw [full_account_path_eq_amended]

/-! ## Claim C1 -/

theorem data_row_records_eq (isPL : Bool) (sp ep c : String) (cols : List String)
    (ctx : Ctx) (g : String) (cd : List Cell) (h : 2 ≤ cd.length) :
    data_row_records isPL sp ep c cols ctx g cd =
      (cols.enumFrom 1).map (fun p => make_account_record isPL sp ep c ctx g
        (cd.getD 0 ⟨"", ""⟩).value (stripAtIndex (cd.getD 0 ⟨"", ""⟩).id)
        (full_account_name ctx (cd.getD 0 ⟨"", ""⟩).value) cd p.1 p.2) := by
  unfold data_row_records
  rw [if_pos h]

/-- Claim C1, counterexample: a `Data` row with a single cell is reached
by the flattener but emits no record at all, although one class column
is retained — the code guards on `len(col_data) >= 2`. -/
theorem C1_counterexample :
    (process_rows false "s" "e" "c" ["ClassA"]
        [Row.data "g" [⟨"Acct", "1"⟩]] Ctx.empty).length
      ≠ (["ClassA"] : List String).length := by
  simp [process_rows, data_row_records]

/-- Claim C1 as amended: for every `DataRow` with at least two cells
reached during flattening, the flattener emits exactly one record per
retained class column — all of them contiguously, in column order,
before anything emitted for later rows — and any two records for the
same row agree on every field other than `Class` and `Total_Money`. -/
theorem C1_data_row_emission (isPL : Bool) (sp ep c : String) (cols : List String)
    (ctx : Ctx) (g : String) (cd : List Cell) (rest : List Row) (h : 2 ≤ cd.length) :
    process_rows isPL sp ep c cols (Row.data g cd :: rest) ctx =
      data_row_records isPL sp ep c cols ctx g cd ++
        process_rows isPL sp ep c cols rest ctx ∧
    data_row_records isPL sp ep c cols ctx g cd =
      (cols.enumFrom 1).map (fun p => make_account_record isPL sp ep c ctx g
        (cd.getD 0 ⟨"", ""⟩).value (stripAtIndex (cd.getD 0 ⟨"", ""⟩).id)
        (full_account_name ctx (cd.getD 0 ⟨"", ""⟩).value) cd p.1 p.2) ∧
    (data_row_records isPL sp ep c cols ctx g cd).length = cols.length ∧
    (∀ r1 ∈ data_row_records isPL sp ep c cols ctx g cd,
      ∀ r2 ∈ data_row_records isPL sp ep c cols ctx g cd,
        eq_except_class_total r1 r2) := by
  refine ⟨by simp [process_rows], data_row_records_eq _ _ _ _ _ _ _ _ h, ?_, ?_⟩
  · rw [data_row_records_eq _ _ _ _ _ _ _ _ h]
    simp [List.enumFrom_length]
  · intro r1 hr1 r2 hr2
    rw [data_row_records_eq _ _ _ _ _ _ _ _ h] at hr1 hr2
    simp only [List.mem_map] at hr1 hr2
    obtain ⟨p1, -, rfl⟩ := hr1
    obtain ⟨p2, -, rfl⟩ := hr2
    simp [eq_except_class_total, make_account_record]

/-- Claim C1 witness: a concrete balance-sheet data row with two cells
and two class columns; the two records it emits agree outside
`Class` and `Total_Money`. -/
theorem C1_witness :
    2 ≤ ([⟨"Checking", "35"⟩, ⟨"100.00", ""⟩] : List Cell).length ∧
    process_rows false "2024-01-01" "2024-01-31" "USD" ["ClassA", "ClassB"]
        [Row.data "BankAccounts" [⟨"Checking", "35"⟩, ⟨"100.00", ""⟩]] Ctx.empty =
      data_row_records false "2024-01-01" "2024-01-31" "USD" ["ClassA", "ClassB"]
        Ctx.empty "BankAccounts" [⟨"Checking", "35"⟩, ⟨"100.00", ""⟩] ++
        process_rows false "2024-01-01" "2024-01-31" "USD" ["ClassA", "ClassB"] [] Ctx.empty ∧
    (data_row_records false "2024-01-01" "2024-01-31" "USD" ["ClassA", "ClassB"]
        Ctx.empty "BankAccounts" [⟨"Checking", "35"⟩, ⟨"100.00", ""⟩]).length =
      (["ClassA", "ClassB"] : List String).length ∧
    eq_except_class_total
      { _Account := "Checking", _Account_id := "35", StartPeriod := "2024-01-01",
        EndPeriod := "2024-01-31", Currency := "USD", ParentAccountName := "",
        ParentAccountId := "", GrandParentAccountName := "", GrandParentAccountId := "",
        CategoryAccountName := "", CategoryAccountId := "",
        Classification := "BankAccounts", FullyQualifiedName := "", AccountType := "",
        FullAccountName := "Checking", Class := "ClassA", Total_Money := "100.00" }
      { _Account := "Checking", _Account_id := "35", StartPeriod := "2024-01-01",
        EndPeriod := "2024-01-31", Currency := "USD", ParentAccountName := "",
        ParentAccountId := "", GrandParentAccountName := "", GrandParentAccountId := "",
        CategoryAccountName := "", CategoryAccountId := "",
        Classification := "BankAccounts", FullyQualifiedName := "", AccountType := "",
        FullAccountName := "Checking", Class := "ClassB", Total_Money := "" } :=
  ⟨by decide,
   (C1_data_row_emission false "2024-01-01" "2024-01-31" "USD" ["ClassA", "ClassB"]
     Ctx.empty "BankAccounts" [⟨"Checking", "35"⟩, ⟨"100.00", ""⟩] [] (by decide)).1,
   (C1_data_row_emission false "2024-01-01" "2024-01-31" "USD" ["ClassA", "ClassB"]
     Ctx.empty "BankAccounts" [⟨"Checking", "35"⟩, ⟨"100.00", ""⟩] [] (by decide)).2.2.1,
   (C1_data_row_emission false "2024-01-01" "2024-01-31" "USD" ["ClassA", "ClassB"]
     Ctx.empty "BankAccounts" [⟨"Checking", "35"⟩, ⟨"100.00", ""⟩] [] (by decide)).2.2.2
     _ (by decide) _ (by decide)⟩

/-! ## Claim C3 -/

/-- Claim C3: in a Profit and Loss report, a data row whose context has
a non-empty parent and an empty grandparent is emitted with
`GrandParentAccountName` equal to the category name; and at section
depth at least two (category and parent both set) the new parent is the
current section while the new grandparent is the category. -/
theorem C3_profit_loss_grandparent :
    (∀ (sp ep c : String) (cols : List String) (ctx : Ctx) (g : String) (cd : List Cell),
      ctx.parent_name ≠ "" → ctx.grandparent_name = "" →
      ∀ r ∈ data_row_records true sp ep c cols ctx g cd,
        r.GrandParentAccountName = ctx.category_name) ∧
    (∀ (ctx : Ctx) (n i : String), ctx.category_name ≠ "" → ctx.parent_name ≠ "" →
      (section_context true ctx n i).parent_name = n ∧
      (section_context true ctx n i).grandparent_name = ctx.category_name) := by
  constructor
  · intro sp ep c cols ctx g cd hp hg r hr
    unfold data_row_records at hr
    split at hr
    · simp only [List.mem_map] at hr
      obtain ⟨p, -, rfl⟩ := hr
      simp [make_account_record, hp, hg]
    · simp at hr
  · intro ctx n i h1 h2
    simp [section_context, process_profit_loss_hierarchy, h1, h2]

/-- Claim C3 witness: the spec's own example — category `"Income"`,
parent `"Sales"`, no grandparent; the emitted record for
`"4005 Sales"` carries `GrandParentAccountName = "Income"`. -/
theorem C3_witness :
    (({ category_name := "Income", parent_name := "Sales" } : Ctx).parent_name ≠ "" ∧
     ({ category_name := "Income", parent_name := "Sales" } : Ctx).grandparent_name = "" ∧
     ({ _Account := "4005 Sales", _Account_id := "85", StartPeriod := "2024-01-01",
        EndPeriod := "2024-01-31", Currency := "USD", ParentAccountName := "Sales",
        ParentAccountId := "", GrandParentAccountName := "Income",
        GrandParentAccountId := "", CategoryAccountName := "Income",
        CategoryAccountId := "", Classification := "Income", FullyQualifiedName := "",
        AccountType := "", FullAccountName := "Income:Sales:4005 Sales",
        Class := "Total", Total_Money := "1000.00" } : AccountRecord)
       ∈ data_row_records true "2024-01-01" "2024-01-31" "USD" ["Total"]
          { category_name := "Income", parent_name := "Sales" } "Income"
          [⟨"4005 Sales", "85"⟩, ⟨"1000.00", ""⟩] ∧
     ({ _Account := "4005 Sales", _Account_id := "85", StartPeriod := "2024-01-01",
        EndPeriod := "2024-01-31", Currency := "USD", ParentAccountName := "Sales",
        ParentAccountId := "", GrandParentAccountName := "Income",
        GrandParentAccountId := "", CategoryAccountName := "Income",
        CategoryAccountId := "", Classification := "Income", FullyQualifiedName := "",
        AccountType := "", FullAccountName := "Income:Sales:4005 Sales",
        Class := "Total", Total_Money := "1000.00" } : AccountRecord).GrandParentAccountName
       = ({ category_name := "Income", parent_name := "Sales" } : Ctx).category_name) ∧
    (({ category_name := "Income", parent_name := "Sales" } : Ctx).category_name ≠ "" ∧
     (section_context true { category_name := "Income", parent_name := "Sales" }
        "Sales Sub" "91").parent_name = "Sales Sub" ∧
     (section_context true { category_name := "Income", parent_name := "Sales" }
        "Sales Sub" "91").grandparent_name =
       ({ category_name := "Income", parent_name := "Sales" } : Ctx).category_name) :=
  ⟨⟨by decide, by decide, by decide,
    C3_profit_loss_grandparent.1 "2024-01-01" "2024-01-31" "USD" ["Total"]
      { category_name := "Income", parent_name := "Sales" } "Income"
      [⟨"4005 Sales", "85"⟩, ⟨"1000.00", ""⟩] (by decide) (by decide) _ (by decide)⟩,
   ⟨by decide,
    (C3_profit_loss_grandparent.2 { category_name := "Income", parent_name := "Sales" }
      "Sales Sub" "91" (by decide) (by decide)).1,
    (C3_profit_loss_grandparent.2 { category_name := "Income", parent_name := "Sales" }
      "Sales Sub" "91" (by decide) (by decide)).2⟩⟩

/-! ## Claim C7 -/

/-- Claim C7: every identifier stored in an emitted record — the
account id, parent id and grandparent id — is the index-marker-stripped
form of its source value, the id passed down for a section header is
stripped the same way, and stripping maps `"87 at index 3"` to
`"87"`. -/
theorem C7_identifier_cleanup :
    (∀ (isPL : Bool) (sp ep c : String) (cols : List String) (ctx : Ctx)
        (g : String) (cd : List Cell),
      ∀ r ∈ data_row_records isPL sp ep c cols ctx g cd,
        r._Account_id = stripAtIndex (cd.getD 0 ⟨"", ""⟩).id ∧
        r.ParentAccountId = stripAtIndex ctx.parent_id ∧
        r.GrandParentAccountId = stripAtIndex ctx.grandparent_id) ∧
    (∀ (isPL : Bool) (sp ep c : String) (cols : List String) (g : String)
        (hcd : List Cell) (nested rest : List Row) (ctx : Ctx),
      process_rows isPL sp ep c cols (Row.section g hcd nested :: rest) ctx =
        process_rows isPL sp ep c cols nested
          (section_context isPL ctx (hcd.getD 0 ⟨"", ""⟩).value
            (stripAtIndex (hcd.getD 0 ⟨"", ""⟩).id)) ++
        process_rows isPL sp ep c cols rest ctx) ∧
    stripAtIndex "87 at index 3" = "87" := by
  refine ⟨?_, ?_, by decide⟩
  · intro isPL sp ep c cols ctx g cd r hr
    unfold data_row_records at hr
    split at hr
    · simp only [List.mem_map] at hr
      obtain ⟨p, -, rfl⟩ := hr
      simp [make_account_record]
    · simp at hr
  · intro isPL sp ep c cols g hcd nested rest ctx
    simp [process_rows]

/-- Claim C7 witness: a concrete data row whose account id and whose
context ids carry the index marker; the emitted record stores the
stripped forms. -/
theorem C7_witness :
    ({ _Account := "Petty Cash", _Account_id := "87", StartPeriod := "s",
       EndPeriod := "e", Currency := "c", ParentAccountName := "Checking",
       ParentAccountId := "35", GrandParentAccountName := "Current Assets",
       GrandParentAccountId := "12", CategoryAccountName := "Assets",
       CategoryAccountId := "", Classification := "BankAccounts",
       FullyQualifiedName := "", AccountType := "",
       FullAccountName := "Assets:Current Assets:Checking:Petty Cash",
       Class := "Total", Total_Money := "5.00" } : AccountRecord)
      ∈ data_row_records false "s" "e" "c" ["Total"]
          { parent_name := "Checking", parent_id := "35 at index 2",
            grandparent_name := "Current Assets", grandparent_id := "12 at index 1",
            category_name := "Assets" } "BankAccounts"
          [⟨"Petty Cash", "87 at index 3"⟩, ⟨"5.00", ""⟩] ∧
    ({ _Account := "Petty Cash", _Account_id := "87", StartPeriod := "s",
       EndPeriod := "e", Currency := "c", ParentAccountName := "Checking",
       ParentAccountId := "35", GrandParentAccountName := "Current Assets",
       GrandParentAccountId := "12", CategoryAccountName := "Assets",
       CategoryAccountId := "", Classification := "BankAccounts",
       FullyQualifiedName := "", AccountType := "",
       FullAccountName := "Assets:Current Assets:Checking:Petty Cash",
       Class := "Total", Total_Money := "5.00" } : AccountRecord)._Account_id =
        stripAtIndex (([⟨"Petty Cash", "87 at index 3"⟩, ⟨"5.00", ""⟩] : List Cell).getD 0
          ⟨"", ""⟩).id ∧
    ({ _Account := "Petty Cash", _Account_id := "87", StartPeriod := "s",
       EndPeriod := "e", Currency := "c", ParentAccountName := "Checking",
       ParentAccountId := "35", GrandParentAccountName := "Current Assets",
       GrandParentAccountId := "12", CategoryAccountName := "Assets",
       CategoryAccountId := "", Classification := "BankAccounts",
       FullyQualifiedName := "", AccountType := "",
       FullAccountName := "Assets:Current Assets:Checking:Petty Cash",
       Class := "Total", Total_Money := "5.00" } : AccountRecord).ParentAccountId =
        stripAtIndex "35 at index 2" :=
  ⟨by decide,
   (C7_identifier_cleanup.1 false "s" "e" "c" ["Total"]
     { parent_name := "Checking", parent_id := "35 at index 2",
       grandparent_name := "Current Assets", grandparent_id := "12 at index 1",
       category_name := "Assets" } "BankAccounts"
     [⟨"Petty Cash", "87 at index 3"⟩, ⟨"5.00", ""⟩] _ (by decide)).1,
   (C7_identifier_cleanup.1 false "s" "e" "c" ["Total"]
     { parent_name := "Checking", parent_id := "35 at index 2",
       grandparent_name := "Current Assets", grandparent_id := "12 at index 1",
       category_name := "Assets" } "BankAccounts"
     [⟨"Petty Cash", "87 at index 3"⟩, ⟨"5.00", ""⟩] _ (by decide)).2.1⟩

/-! ## Claim C10 -/

theorem mem_data_row_records_fields (isPL : Bool) (sp ep c : String) (cols : List String)
    (ctx : Ctx) (g : String) (cd : List Cell) :
    ∀ r ∈ data_row_records isPL sp ep c cols ctx g cd,
      r.CategoryAccountId = ctx.category_id ∧ r.FullyQualifiedName = "" ∧
        r.AccountType = "" := by
  intro r hr
  unfold data_row_records at hr
  split at hr
  · simp only [List.mem_map] at hr
    obtain ⟨p, -, rfl⟩ := hr
    simp [make_account_record]
  · simp at hr

theorem section_context_keeps_empty_category_id (isPL : Bool) (ctx : Ctx) (n i : String)
    (h : ctx.category_id = "") : (section_context isPL ctx n i).category_id = "" := by
  unfold section_context process_profit_loss_hierarchy process_balance_sheet_hierarchy
  split_ifs <;> simp [h]

/-- Claim C10: a top-level section's id is discarded when the section
becomes the category (the new context's `category_id` is set to `""`,
not to the section's id), and every record emitted by the flattener
from a context with empty `category_id` — the top-level call uses the
all-empty context — has `CategoryAccountId`, `FullyQualifiedName` and
`AccountType` equal to the empty string. -/
theorem C10_empty_fields :
    (∀ (isPL : Bool) (ctx : Ctx) (n i : String), ctx.category_name = "" →
      (section_context isPL ctx n i).category_id = "") ∧
    (∀ (isPL : Bool) (sp ep c : String) (cols : List String) (rows : List Row) (ctx : Ctx),
      ctx.category_id = "" →
      ∀ r ∈ process_rows isPL sp ep c cols rows ctx,
        r.CategoryAccountId = "" ∧ r.FullyQualifiedName = "" ∧ r.AccountType = "") := by
  constructor
  · intro isPL ctx n i h
    unfold section_context
    rw [if_pos h]
  · intro isPL sp ep c cols rows ctx
    induction rows, ctx using process_rows.induct isPL sp ep c cols with
    | case1 ctx =>
        intro _ r hr
        simp [process_rows] at hr
    | case2 g cd rest ctx ih =>
        intro h r hr
        simp only [process_rows, List.mem_append] at hr
        rcases hr with hr | hr
        · have := mem_data_row_records_fields isPL sp ep c cols ctx g cd r hr
          rw [h] at this
          exact this
        · exact ih h r hr
    | case3 g hcd nested rest ctx sdn sid ih1 ih2 =>
        intro h r hr
        simp only [process_rows, List.mem_append] at hr
        rcases hr with hr | hr
        · exact ih1 (section_context_keeps_empty_category_id _ _ _ _ h) r hr
        · exact ih2 h r hr
    | case4 rest ctx ih =>
        intro h r hr
        simp only [process_rows] at hr
        exact ih h r hr

/-- Claim C10 witness: a concrete two-level balance-sheet tree flattened
from the top-level (all-empty) context; the record it emits has the
three fields empty. -/
theorem C10_witness :
    Ctx.empty.category_id = "" ∧
    checkingRecord ∈
      process_rows false "s" "e" "c" ["Total"]
        [Row.section "Assets" [⟨"ASSETS", ""⟩]
          [Row.data "BankAccounts" [⟨"Checking", "35"⟩, ⟨"100.00", ""⟩]]] Ctx.empty ∧
    checkingRecord.CategoryAccountId = "" ∧
    checkingRecord.FullyQualifiedName = "" ∧
    checkingRecord.AccountType = "" := by
  have hmem : checkingRecord ∈
      process_rows false "s" "e" "c" ["Total"]
        [Row.section "Assets" [⟨"ASSETS", ""⟩]
          [Row.data "BankAccounts" [⟨"Checking", "35"⟩, ⟨"100.00", ""⟩]]] Ctx.empty := by
    simp only [process_rows, data_row_records, section_context]
    decide
  exact ⟨rfl, hmem,
    C10_empty_fields.2 false "s" "e" "c" ["Total"]
      [Row.section "Assets" [⟨"ASSETS", ""⟩]
        [Row.data "BankAccounts" [⟨"Checking", "35"⟩, ⟨"100.00", ""⟩]]] Ctx.empty rfl
      _ hmem⟩

/-! ## Claim C8 -/

/-- Claim C8, counterexample: no `rotated` flag exists.  A success
response that carries a refresh token equal to the stored one and a
success response that carries none produce identical results (state and
return value) from the same pre-state, so no function of what the
refresher produces can equal the rotation indicator (`true` exactly
when the response includes a refresh token value); the claimed
`rotated = true` is not recorded anywhere. -/
theorem C8_counterexample :
    refresh_access_token ⟨"tokA", none⟩ 1000 ⟨200, "acc", 3600, some "tokA"⟩ =
      refresh_access_token ⟨"tokA", none⟩ 1000 ⟨200, "acc", 3600, none⟩ ∧
    (⟨200, "acc", 3600, some "tokA"⟩ : RefreshResponse).refresh_token.isSome = true ∧
    (⟨200, "acc", 3600, none⟩ : RefreshResponse).refresh_token.isSome = false ∧
    ¬ ∃ rotated : AuthState → AuthState × String × Int → Bool,
        ∀ (st : AuthState) (now : Int) (resp : RefreshResponse)
          (out : AuthState × String × Int),
          resp.status_code = 200 →
          refresh_access_token st now resp = .ok out →
          rotated st out = resp.refresh_token.isSome := by
  refine ⟨rfl, rfl, rfl, ?_⟩
  rintro ⟨f, hf⟩
  have h1 := hf ⟨"tokA", none⟩ 1000 ⟨200, "acc", 3600, some "tokA"⟩
    (⟨"tokA", some 4600⟩, "acc", 3600) rfl rfl
  have h2 := hf ⟨"tokA", none⟩ 1000 ⟨200, "acc", 3600, none⟩
    (⟨"tokA", some 4600⟩, "acc", 3600) rfl rfl
  rw [h1] at h2
  exact Bool.noConfusion h2

/-- Claim C8 as amended: when `refresh_access_token` receives a success
response it records a new expiry equal to the current epoch time plus
the response's `expires_in` and returns the new access token with
`expires_in`; if the response includes a refresh token value it is
stored as the current refresh token.  No `rotated` flag is recorded —
rotation is not tracked in the refresher's state. -/
theorem C8_refresh_success (st : AuthState) (now : Int) (resp : RefreshResponse)
    (h : resp.status_code = 200) :
    refresh_access_token st now resp =
      .ok ({ refresh_token := resp.refresh_token.getD st.refresh_token,
             token_expiry_date := some (now + resp.expires_in) },
        resp.access_token, resp.expires_in) := by
  unfold refresh_access_token
  rw [if_neg (by simp [h])]
  cases hr : resp.refresh_token <;> simp [hr]

/-- Claim C8 witness: a concrete success response with a rotated
refresh token. -/
theorem C8_witness :
    (⟨200, "newAccess", 3600, some "tokB"⟩ : RefreshResponse).status_code = 200 ∧
    refresh_access_token ⟨"tokA", none⟩ 1000 ⟨200, "newAccess", 3600, some "tokB"⟩ =
      .ok (⟨"tokB", some 4600⟩, "newAccess", 3600) :=
  ⟨rfl, C8_refresh_success ⟨"tokA", none⟩ 1000 ⟨200, "newAccess", 3600, some "tokB"⟩ rfl⟩

/-! ## Claim C6 -/

/-- Claim C6, counterexample: called with `start = 2024-03-10 >
end = 2024-01-15` the slicer returns normally with an empty slice list;
no `InvalidRangeError` (or any other failure) exists in the code, so
its behaviour differs from the claimed contract, which demands an
error. -/
theorem C6_counterexample :
    stream_slices ⟨2024, 3, 10⟩ ⟨2024, 1, 15⟩ = [] ∧
    claimed_slicer ⟨2024, 3, 10⟩ ⟨2024, 1, 15⟩ = .error "InvalidRangeError" ∧
    Except.ok (stream_slices ⟨2024, 3, 10⟩ ⟨2024, 1, 15⟩) ≠
      claimed_slicer ⟨2024, 3, 10⟩ ⟨2024, 1, 15⟩ := by
  refine ⟨rfl, rfl, fun h => ?_⟩
  rw [show claimed_slicer ⟨2024, 3, 10⟩ ⟨2024, 1, 15⟩ =
    Except.error "InvalidRangeError" from rfl] at h
  exact Except.noConfusion h

theorem streamSlicesGo_nil (endD : Date) (fuel : Nat) (cur : Date)
    (h : endD.key < cur.key) : streamSlicesGo endD fuel cur = [] := by
  cases fuel with
  | zero => rfl
  | succ n =>
      unfold streamSlicesGo
      rw [if_neg (by omega)]

/-- Claim C6 as amended: for every pair of dates with `start > end` the
slicer yields the empty slice sequence — the `while` loop never runs —
so no per-slice request is ever issued; no error is raised (the code
has no `InvalidRangeError`). -/
theorem C6_empty_range (start endD : Date) (h : endD.key < start.key) :
    stream_slices start endD = [] :=
  streamSlicesGo_nil endD _ start h

/-- Claim C6 witness: the concrete inverted range used in the
counterexample. -/
theorem C6_witness :
    (⟨2024, 1, 15⟩ : Date).key < (⟨2024, 3, 10⟩ : Date).key ∧
    stream_slices ⟨2024, 3, 10⟩ ⟨2024, 1, 15⟩ = [] :=
  ⟨by decide, C6_empty_range ⟨2024, 3, 10⟩ ⟨2024, 1, 15⟩ (by decide)⟩

/-! ## Claim C5: calendar lemmas -/

theorem daysInMonth_bounds (y m : Nat) : 28 ≤ daysInMonth y m ∧ daysInMonth y m ≤ 31 := by
  unfold daysInMonth
  split_ifs <;> omega

theorem monthsIdx_le_of_key_le {a b : Date} (ha : a.valid) (hb : b.valid)
    (h : a.key ≤ b.key) : monthsIdx a ≤ monthsIdx b := by
  obtain ⟨ha1, ha2, ha3, ha4⟩ := ha
  obtain ⟨hb1, hb2, hb3, hb4⟩ := hb
  have h1 := (daysInMonth_bounds a.year a.month).2
  have h2 := (daysInMonth_bounds b.year b.month).2
  unfold Date.key at h
  unfold monthsIdx
  omega

theorem nextMonthFirst_valid {d : Date} (hd : d.valid) : (nextMonthFirst d).valid := by
  obtain ⟨h1, h2, h3, h4⟩ := hd
  have ha := (daysInMonth_bounds (d.year + 1) 1).1
  have hb := (daysInMonth_bounds d.year (d.month + 1)).1
  unfold nextMonthFirst Date.valid
  split_ifs with hm <;> simp <;> omega

theorem monthsIdx_nextMonthFirst (d : Date) (_h2 : d.month ≤ 12) :
    monthsIdx (nextMonthFirst d) = monthsIdx d + 1 := by
  unfold nextMonthFirst monthsIdx
  split_ifs with hm <;> simp <;> omega

theorem key_lt_nextMonthFirst {d : Date} (hd : d.valid) :
    d.key < (nextMonthFirst d).key := by
  obtain ⟨h1, -, h3, h4⟩ := hd
  have h5 := (daysInMonth_bounds d.year d.month).2
  unfold nextMonthFirst Date.key
  split_ifs with hm <;> simp <;> omega

theorem endOfMonth_valid {d : Date} (hd : d.valid) : (endOfMonth d).valid := by
  obtain ⟨h1, h2, h3, h4⟩ := hd
  have h5 := (daysInMonth_bounds d.year d.month).1
  unfold endOfMonth Date.valid
  simp
  omega

theorem key_le_endOfMonth {d : Date} (hd : d.valid) : d.key ≤ (endOfMonth d).key := by
  obtain ⟨h1, h2, h3, h4⟩ := hd
  unfold endOfMonth Date.key
  simp
  omega

theorem endOfMonth_key_lt {d : Date} (hd : d.valid) :
    (endOfMonth d).key < (nextMonthFirst d).key := by
  obtain ⟨h1, h2, h3, h4⟩ := hd
  have h5 := (daysInMonth_bounds d.year d.month).2
  unfold endOfMonth nextMonthFirst Date.key
  split_ifs with hm <;> simp <;> omega

theorem nextDay_endOfMonth (d : Date) : nextDay (endOfMonth d) = nextMonthFirst d := by
  unfold nextDay endOfMonth nextMonthFirst
  simp

/-- No valid date lies strictly between the last day of `cur`'s month
and the first day of the following month. -/
theorem gap_lemma {cur d : Date} (hc : cur.valid) (hd : d.valid)
    (h : (endOfMonth cur).key < d.key) : (nextMonthFirst cur).key ≤ d.key := by
  obtain ⟨hc1, hc2, hc3, hc4⟩ := hc
  obtain ⟨hd1, hd2, hd3, hd4⟩ := hd
  have hb1 := daysInMonth_bounds cur.year cur.month
  have hb2 := daysInMonth_bounds d.year d.month
  unfold endOfMonth Date.key at h
  simp at h
  unfold nextMonthFirst Date.key
  by_cases heq : d.year = cur.year ∧ d.month = cur.month
  · exfalso
    obtain ⟨e1, e2⟩ := heq
    rw [e1, e2] at hd4
    omega
  · rcases not_and_or.mp heq with h' | h' <;> split_ifs with hm <;> simp <;> omega

theorem streamSlicesGo_succ (endD : Date) (n : Nat) (cur : Date)
    (h : cur.key ≤ endD.key) :
    streamSlicesGo endD (n + 1) cur =
      (cur, if endD.key < (endOfMonth cur).key then endD else endOfMonth cur) ::
        streamSlicesGo endD n (nextMonthFirst cur) := by
  simp only [streamSlicesGo]
  rw [if_pos h]

/-- Correctness of the slicing loop: starting from a valid cursor
within range and with enough fuel, the produced slices start at the
cursor, are valid and stay within the range, are chained day-to-day
(contiguous, strictly increasing, hence non-overlapping and
chronological), and cover exactly the valid dates from the cursor to
the end date. -/
theorem streamSlicesGo_spec (endD : Date) (he : endD.valid) :
    ∀ (fuel : Nat) (cur : Date), cur.valid → cur.key ≤ endD.key →
      monthsIdx endD + 1 - monthsIdx cur ≤ fuel →
      ∃ b rest, streamSlicesGo endD fuel cur = (cur, b) :: rest ∧
        (∀ p ∈ (cur, b) :: rest, p.1.valid ∧ p.2.valid ∧ p.1.key ≤ p.2.key ∧
          cur.key ≤ p.1.key ∧ p.2.key ≤ endD.key) ∧
        List.Chain' (fun p q : Date × Date => q.1 = nextDay p.2 ∧ p.2.key < q.1.key)
          ((cur, b) :: rest) ∧
        (∀ d : Date, d.valid → (cur.key ≤ d.key ∧ d.key ≤ endD.key ↔
          ∃ p ∈ (cur, b) :: rest, p.1.key ≤ d.key ∧ d.key ≤ p.2.key)) := by
  intro fuel
  induction fuel with
  | zero =>
      intro cur hv hle hf
      exfalso
      have := monthsIdx_le_of_key_le hv he hle
      omega
  | succ n ih =>
      intro cur hv hle hf
      have hcurmi := monthsIdx_le_of_key_le hv he hle
      have hmi := monthsIdx_nextMonthFirst cur hv.2.1
      have hnv := nextMonthFirst_valid hv
      have heom_lt := endOfMonth_key_lt hv
      have heom_le := key_le_endOfMonth hv
      have heomv := endOfMonth_valid hv
      by_cases hnext : (nextMonthFirst cur).key ≤ endD.key
      · -- further slices follow; the current slice ends at the end of the month
        have hb : ¬ endD.key < (endOfMonth cur).key := by omega
        obtain ⟨b', rest', hgo, hbounds, hchain, hcov⟩ :=
          ih (nextMonthFirst cur) hnv hnext (by omega)
        refine ⟨endOfMonth cur, (nextMonthFirst cur, b') :: rest', ?_, ?_, ?_, ?_⟩
        · rw [streamSlicesGo_succ endD n cur hle, hgo, if_neg hb]
        · intro p hp
          rcases List.mem_cons.mp hp with rfl | hp
          · exact ⟨hv, heomv, heom_le, le_refl _,
              show (endOfMonth cur).key ≤ endD.key by omega⟩
          · obtain ⟨q1, q2, q3, q4, q5⟩ := hbounds p hp
            exact ⟨q1, q2, q3, by omega, q5⟩
        · exact List.chain'_cons.mpr ⟨⟨(nextDay_endOfMonth cur).symm, heom_lt⟩, hchain⟩
        · intro d hdv
          constructor
          · rintro ⟨hd1, hd2⟩
            by_cases hcase : d.key ≤ (endOfMonth cur).key
            · exact ⟨(cur, endOfMonth cur), List.mem_cons_self _ _, hd1, hcase⟩
            · have hge : (nextMonthFirst cur).key ≤ d.key :=
                gap_lemma hv hdv (by omega)
              obtain ⟨p, hp, hp1, hp2⟩ := (hcov d hdv).mp ⟨hge, hd2⟩
              exact ⟨p, List.mem_cons_of_mem _ hp, hp1, hp2⟩
          · rintro ⟨p, hp, hp1, hp2⟩
            rcases List.mem_cons.mp hp with rfl | hp
            · have h1 : cur.key ≤ d.key := hp1
              have h2 : d.key ≤ (endOfMonth cur).key := hp2
              exact ⟨h1, by omega⟩
            · obtain ⟨hq1, hq2⟩ := (hcov d hdv).mpr ⟨p, hp, hp1, hp2⟩
              exact ⟨by omega, hq2⟩
      · -- final slice: the range ends before the next month starts
        have hrest : streamSlicesGo endD n (nextMonthFirst cur) = [] :=
          streamSlicesGo_nil endD n (nextMonthFirst cur) (by omega)
        refine ⟨if endD.key < (endOfMonth cur).key then endD else endOfMonth cur, [],
          ?_, ?_, ?_, ?_⟩
        · rw [streamSlicesGo_succ endD n cur hle, hrest]
        · intro p hp
          rcases List.mem_cons.mp hp with rfl | hp
          · refine ⟨hv, ?_, ?_, le_refl _, ?_⟩
            · show (if endD.key < (endOfMonth cur).key then endD else endOfMonth cur).valid
              split_ifs
              · exact he
              · exact heomv
            · show cur.key ≤
                (if endD.key < (endOfMonth cur).key then endD else endOfMonth cur).key
              split_ifs
              · exact hle
              · exact heom_le
            · show (if endD.key < (endOfMonth cur).key then endD
                  else endOfMonth cur).key ≤ endD.key
              split_ifs with hx
              · exact le_refl _
              · omega
          · simp at hp
        · exact List.chain'_singleton _
        · intro d hdv
          constructor
          · rintro ⟨hd1, hd2⟩
            refine ⟨(cur, if endD.key < (endOfMonth cur).key then endD
              else endOfMonth cur), List.mem_cons_self _ _, hd1, ?_⟩
            show d.key ≤
              (if endD.key < (endOfMonth cur).key then endD else endOfMonth cur).key
            split_ifs with hx
            · exact hd2
            · by_contra hcon
              push_neg at hcon
              have := gap_lemma hv hdv hcon
              omega
          · rintro ⟨p, hp, hp1, hp2⟩
            rcases List.mem_cons.mp hp with rfl | hp
            · have h1 : cur.key ≤ d.key := hp1
              have h2 : d.key ≤
                  (if endD.key < (endOfMonth cur).key then endD
                    else endOfMonth cur).key := hp2
              refine ⟨h1, ?_⟩
              revert h2
              split_ifs with hx
              · exact fun h => h
              · intro h
                omega
            · simp at hp

/-- Claim C5: for every valid pair of dates with `start <= end`, the
slicer's output is a chronologically ordered sequence of contiguous,
non-overlapping slices — each slice within the range, consecutive
slices chained by day succession — whose union is exactly the valid
dates of `[start, end]`; and `start = 2024-01-15`, `end = 2024-03-10`
yield exactly the three slices `[2024-01-15, 2024-01-31]`,
`[2024-02-01, 2024-02-29]`, `[2024-03-01, 2024-03-10]`. -/
theorem C5_monthly_slices (start endD : Date) (hs : start.valid) (he : endD.valid)
    (hle : start.key ≤ endD.key) :
    ((∀ p ∈ stream_slices start endD, p.1.valid ∧ p.2.valid ∧ p.1.key ≤ p.2.key ∧
        start.key ≤ p.1.key ∧ p.2.key ≤ endD.key) ∧
     List.Chain' (fun p q : Date × Date => q.1 = nextDay p.2 ∧ p.2.key < q.1.key)
       (stream_slices start endD) ∧
     (∀ d : Date, d.valid → (start.key ≤ d.key ∧ d.key ≤ endD.key ↔
        ∃ p ∈ stream_slices start endD, p.1.key ≤ d.key ∧ d.key ≤ p.2.key))) ∧
    stream_slices ⟨2024, 1, 15⟩ ⟨2024, 3, 10⟩ =
      [(⟨2024, 1, 15⟩, ⟨2024, 1, 31⟩), (⟨2024, 2, 1⟩, ⟨2024, 2, 29⟩),
       (⟨2024, 3, 1⟩, ⟨2024, 3, 10⟩)] := by
  constructor
  · obtain ⟨b, rest, hgo, hbounds, hchain, hcov⟩ :=
      streamSlicesGo_spec endD he (monthsIdx endD + 1 - monthsIdx start) start hs hle
        (le_refl _)
    unfold stream_slices
    rw [hgo]
    exact ⟨hbounds, hchain, hcov⟩
  · decide

/-- Claim C5 witness: the slicer at the spec's example range — validity
and ordering hypotheses hold, the slices are chained, and the output is
the three expected slices. -/
theorem C5_witness :
    (⟨2024, 1, 15⟩ : Date).valid ∧ (⟨2024, 3, 10⟩ : Date).valid ∧
    (⟨2024, 1, 15⟩ : Date).key ≤ (⟨2024, 3, 10⟩ : Date).key ∧
    List.Chain' (fun p q : Date × Date => q.1 = nextDay p.2 ∧ p.2.key < q.1.key)
      (stream_slices ⟨2024, 1, 15⟩ ⟨2024, 3, 10⟩) ∧
    stream_slices ⟨2024, 1, 15⟩ ⟨2024, 3, 10⟩ =
      [(⟨2024, 1, 15⟩, ⟨2024, 1, 31⟩), (⟨2024, 2, 1⟩, ⟨2024, 2, 29⟩),
       (⟨2024, 3, 1⟩, ⟨2024, 3, 10⟩)] :=
  ⟨by decide, by decide, by decide,
   (C5_monthly_slices ⟨2024, 1, 15⟩ ⟨2024, 3, 10⟩ (by decide) (by decide)
     (by decide)).1.2.1,
   (C5_monthly_slices ⟨2024, 1, 15⟩ ⟨2024, 3, 10⟩ (by decide) (by decide)
     (by decide)).2⟩

end QBD
